import Mathlib

set_option maxHeartbeats 1000000

/-
Shallow embedding of the Transkribus-API batch scripts.

The repository drives the Transkribus REST API: it submits layout-analysis
and text-recognition jobs (collection_transcription.py), downloads the
latest page transcript of each page (download_latest_pagexml.py), and
compares two transcript versions of a document to compute character/word
error rates (htr_model_validation.py, legacy validateHtrModel.py).
The HTTP layer lives in connect_transkribus.py (legacy: connectTranskribus.py).

Remote state (HTTP responses, fetched page XML) is passed in explicitly:
a response stream is a function from the attempt number to an outcome, and
fetched page XML is a function from a URL to a parsed element tree.
Python code that raises is embedded with Option/Except (none / .error);
code that can loop forever is embedded with an explicit fuel argument where
`none` means the fuel bound was reached.
-/

/-- A Transkribus transcript (page version) as the scripts read it from the
document-content JSON: identifier, status string, optional producing tool
name, content URL and timestamp (milliseconds). -/
structure Transcript where
  tsId : Nat
  status : String
  toolName : Option String
  url : String
  timestamp : Int
deriving DecidableEq

/-- A Transkribus page: 1-based page number, page identifier and the list of
transcripts, newest-first by platform convention. -/
structure TPage where
  pageNr : Nat
  pageId : Nat
  transcripts : List Transcript
deriving DecidableEq

/-- Ordering of pages by their page number (document page lists are ordered
by increasing page number). -/
def pageNrLt (a b : TPage) : Prop := a.pageNr < b.pageNr

instance : DecidableRel pageNrLt := fun a b => Nat.decLt a.pageNr b.pageNr

/-- Scan of a haystack for a literal needle: true iff the needle is a prefix
of some suffix of the haystack. -/
def substrSearch (kw : List Char) : List Char → Bool
  | [] => kw.isEmpty
  | c :: rest => kw.isPrefixOf (c :: rest) || substrSearch kw rest

/-- Model of `re.search(version_keyword, tool_name)` for the literal keywords
the scripts use (for example "Model: 50719"): the keyword matches iff it
occurs as a substring of the tool name. -/
def reSearch (kw s : String) : Bool := substrSearch kw.data s.data

/-- The match condition of one loop iteration of
htr_model_validation.get_page_version_index (lines 94-99): the transcript
matches when its toolName (if present) contains the keyword, or its status
equals the keyword. -/
def keywordMatch (kw : String) (t : Transcript) : Bool :=
  (match t.toolName with
   | some tn => reSearch kw tn
   | none => false) || (t.status == kw)

/-- The scanning loop of htr_model_validation.get_page_version_index:
returns the index of the first matching transcript, else None. -/
def get_page_version_index_go (kw : String) : Nat → List Transcript → Option Nat
  | _, [] => none
  | index, t :: rest =>
    if keywordMatch kw t then some index
    else get_page_version_index_go kw (index + 1) rest

/-- htr_model_validation.get_page_version_index (lines 72-101): "latest"
resolves to index 0; any other keyword resolves to the first transcript
whose toolName contains the keyword or whose status equals the keyword;
no match resolves to None. -/
def get_page_version_index (transcripts : List Transcript)
    (version_keyword : String) : Option Nat :=
  if version_keyword = "latest" then some 0
  else get_page_version_index_go version_keyword 0 transcripts

/-- The match condition of legacy validateHtrModel.get_page_version_index
(lines 36-43): only the toolName is consulted; a missing toolName raises
KeyError which the bare except swallows (match = None). The status is never
compared. -/
def legacyKeywordMatch (kw : String) (t : Transcript) : Bool :=
  match t.toolName with
  | some tn => reSearch kw tn
  | none => false

/-- The scanning loop of legacy validateHtrModel.get_page_version_index. -/
def legacy_get_page_version_index_go (kw : String) :
    Nat → List Transcript → Option Nat
  | _, [] => none
  | index, t :: rest =>
    if legacyKeywordMatch kw t then some index
    else legacy_get_page_version_index_go kw (index + 1) rest

/-- Legacy validateHtrModel.get_page_version_index (lines 30-45). -/
def legacy_get_page_version_index (transcripts : List Transcript)
    (version_keyword : String) : Option Nat :=
  if version_keyword = "latest" then some 0
  else legacy_get_page_version_index_go version_keyword 0 transcripts

/-- collection_transcription.PAGE_DROP_STATUS (line 45). -/
def PAGE_DROP_STATUS : List String := ["DONE"]

/-- collection_transcription.PAGE_DROP_STATUS_FOLLOWING (line 49): whether
subsequent pages of a status-dropped page are dropped too. -/
def PAGE_DROP_STATUS_FOLLOWING : Bool := true

/-- collection_transcription.PAGE_DROP_NR (line 52). -/
def PAGE_DROP_NR : List Nat := [1, 2]

/-- The page-selection loop of collection_transcription.main (lines 150-163).
The Bool argument is the drop_following_pages flag. Per page, in source
order: break when the flag is set; skip pages whose pageNr is in the
page-number drop list; read the status of the transcript at index 0 (IndexError,
hence `none`, when a page has no transcripts) and skip the page when that
status is in the status drop list, setting the flag if the following-page
cutoff is enabled; otherwise select the page (pageNr, pageId). -/
def selectPagesFrom (dropNr : List Nat) (dropStatus : List String)
    (following : Bool) : Bool → List TPage → Option (List (Nat × Nat))
  | _, [] => some []
  | true, _ :: _ => some []
  | false, p :: rest =>
    if p.pageNr ∈ dropNr then selectPagesFrom dropNr dropStatus following false rest
    else
      match p.transcripts.head? with
      | none => none
      | some t =>
        if t.status ∈ dropStatus then
          selectPagesFrom dropNr dropStatus following following rest
        else
          (selectPagesFrom dropNr dropStatus following false rest).map
            (fun sel => (p.pageNr, p.pageId) :: sel)

/-- The first page that the selection loop drops because of its latest
transcript status: pages dropped earlier by page number are passed over,
exactly as in the loop's elif chain. -/
def firstStatusExcluded (dropNr : List Nat) (dropStatus : List String) :
    List TPage → Option TPage
  | [] => none
  | p :: rest =>
    if p.pageNr ∈ dropNr then firstStatusExcluded dropNr dropStatus rest
    else
      match p.transcripts.head? with
      | none => none
      | some t =>
        if t.status ∈ dropStatus then some p
        else firstStatusExcluded dropNr dropStatus rest

/-- A page is literally dropped when its page number is in the page-number
drop list or the status of its transcript at index 0 is in the status drop
list. -/
def literallyDropped (dropNr : List Nat) (dropStatus : List String)
    (p : TPage) : Bool :=
  decide (p.pageNr ∈ dropNr) ||
    (match p.transcripts.head? with
     | some t => decide (t.status ∈ dropStatus)
     | none => false)

/-- A document as collection_transcription.main reads it: identifier and
its page list (the title is irrelevant to the claims and omitted). -/
structure TDoc where
  docId : Nat
  pages : List TPage
deriving DecidableEq

/-- Kind of a submitted Transkribus job. -/
inductive JobKind where
  | p2pala
  | linefinder
  | htr
deriving DecidableEq

/-- A job submission as issued by collection_transcription.main: the P2PaLA
and line-finder layout jobs carry the selected pageId values (serialized
into the request XML), the text-recognition job carries the selected page
numbers (serialized into a comma-separated string). -/
structure JobRequest where
  kind : JobKind
  docId : Nat
  pages : List Nat
deriving DecidableEq

/-- The per-document body of collection_transcription.main (lines 146-262):
select the pages, skip the document entirely when no page is selected
(lines 165-168), else submit the enabled jobs, each over the selected
pages. `none` propagates an IndexError from the page-selection loop. -/
def processDocument (doP2pala doLinefinder doHtr : Bool) (dropNr : List Nat)
    (dropStatus : List String) (following : Bool) (doc : TDoc) :
    Option (List JobRequest) :=
  match selectPagesFrom dropNr dropStatus following false doc.pages with
  | none => none
  | some sel =>
    if sel.isEmpty then some []
    else some (
      (if doP2pala then [⟨JobKind.p2pala, doc.docId, sel.map (fun x => x.2)⟩]
       else []) ++
      (if doLinefinder then
        [⟨JobKind.linefinder, doc.docId, sel.map (fun x => x.2)⟩]
       else []) ++
      (if doHtr then [⟨JobKind.htr, doc.docId, sel.map (fun x => x.1)⟩]
       else []))

/-- Outcome of one HTTP GET attempt, as connect_transkribus.get_page_xml
distinguishes them: success with body text, HTTP 500, any other non-success
status, or a requests.ConnectionError. -/
inductive HttpResult where
  | ok (text : String)
  | serverError
  | otherStatus
  | connError
deriving DecidableEq

/-- True when the attempt outcome is not a success. -/
def isFailure : HttpResult → Bool
  | HttpResult.ok _ => false
  | _ => true

/-- The fixed backoff of connect_transkribus.get_page_xml: time.sleep(60)
before every retry (lines 96, 104, 113). -/
def GET_PAGE_XML_BACKOFF_SECONDS : Nat := 60

/-- The default retry bound of connect_transkribus.get_page_xml
(n_retry=60, line 84). -/
def GET_PAGE_XML_DEFAULT_RETRIES : Nat := 60

/-- connect_transkribus.get_page_xml (lines 84-117) over an explicit stream
of attempt outcomes (`resp k` is the outcome of the k-th GET). A success
returns the body (`Except.ok (some text)`; the `Option` is there only to
compare with the legacy version, which can return Python None). On a 500,
any other non-success status, or a connection error the call sleeps 60s and
retries while n_retry > 0, decrementing it; once exhausted it logs and
re-raises (`Except.error`). -/
def get_page_xml (resp : Nat → HttpResult) :
    Nat → Nat → Except String (Option String)
  | attempt, 0 =>
    match resp attempt with
    | HttpResult.ok t => Except.ok (some t)
    | HttpResult.connError => Except.error "Connection error"
    | _ => Except.error "url invalid?"
  | attempt, n + 1 =>
    match resp attempt with
    | HttpResult.ok t => Except.ok (some t)
    | _ => get_page_xml resp (attempt + 1) n

/-- Legacy connectTranskribus.get_page_xml (lines 70-91) with a fuel bound
(`none` = still retrying when the fuel ran out; the 500 branch retries with
no counter at all). A success returns the body; a 500 sleeps and retries
unconditionally; any other non-success status logs and returns Python None
(`Except.ok none`); a connection error retries once (flag `retry`), then
raises. -/
def legacy_get_page_xml (resp : Nat → HttpResult) :
    Nat → Bool → Nat → Option (Except String (Option String))
  | _, _, 0 => none
  | attempt, retry, fuel + 1 =>
    match resp attempt with
    | HttpResult.ok t => some (Except.ok (some t))
    | HttpResult.serverError => legacy_get_page_xml resp (attempt + 1) true fuel
    | HttpResult.otherStatus => some (Except.ok none)
    | HttpResult.connError =>
      if retry then some (Except.error "Connection error")
      else legacy_get_page_xml resp (attempt + 1) true fuel

/-- The fixed polling interval of run_layout_analysis and
run_text_recognition: time.sleep(10) between job-status checks
(connect_transkribus.py lines 233, 311). -/
def JOB_POLL_INTERVAL_SECONDS : Nat := 10

/-- The `while True` polling loop shared by run_layout_analysis (lines
229-233) and run_text_recognition (lines 307-311): `statuses k` is the
status string returned by the k-th get_job_status call. Returns the index
of the poll that observed "FINISHED", or `none` when the fuel bound was
reached first (the loop itself has no timeout). -/
def pollUntilFinished (statuses : Nat → String) : Nat → Nat → Option Nat
  | _, 0 => none
  | i, fuel + 1 =>
    if statuses i = "FINISHED" then some i
    else pollUntilFinished statuses (i + 1) fuel

/-- connect_transkribus.run_layout_analysis (lines 175-233): a non-success
submission response is logged and raised (lines 223-225); otherwise the job
status is polled every 10 seconds until it equals "FINISHED". `submitOk`
models `r.status_code == requests.codes.ok` of the submission POST;
the outer `none` means the polling loop was still running at the fuel
bound. -/
def run_layout_analysis (submitOk : Bool) (statuses : Nat → String)
    (fuel : Nat) : Option (Except String Unit) :=
  if submitOk then
    (pollUntilFinished statuses 0 fuel).map (fun _ => Except.ok ())
  else some (Except.error "Layout analysis execution failed")

/-- connect_transkribus.run_text_recognition (lines 236-311): same shape as
run_layout_analysis (raise on non-success submission, lines 301-303, then
poll until "FINISHED"). -/
def run_text_recognition (submitOk : Bool) (statuses : Nat → String)
    (fuel : Nat) : Option (Except String Unit) :=
  if submitOk then
    (pollUntilFinished statuses 0 fuel).map (fun _ => Except.ok ())
  else some (Except.error "Text recognition execution failed")

/-- A parsed XML element as ElementTree presents it: tag, attributes, text
content (None for an element with no text) and child elements. -/
inductive XmlElem where
  | node (tag : String) (attrs : List (String × String)) (text : Option String)
      (children : List XmlElem)

/-- Tag of an element. -/
def XmlElem.tag : XmlElem → String
  | XmlElem.node t _ _ _ => t

/-- Text of an element (element.text; None when absent). -/
def XmlElem.text : XmlElem → Option String
  | XmlElem.node _ _ x _ => x

/-- element.get(key): the attribute value, or None when the attribute is
absent. -/
def XmlElem.get? (e : XmlElem) (key : String) : Option String :=
  match e with
  | XmlElem.node _ attrs _ _ => (attrs.find? (fun p => p.1 == key)).map (fun p => p.2)

mutual
/-- element.iter(tag): this element and all its descendants with the given
tag, in document (preorder) order. -/
def iterTag (tg : String) : XmlElem → List XmlElem
  | XmlElem.node t a x cs =>
    (if t = tg then [XmlElem.node t a x cs] else []) ++ iterTagList tg cs

/-- iterTag mapped over a forest. -/
def iterTagList (tg : String) : List XmlElem → List XmlElem
  | [] => []
  | e :: es => iterTag tg e ++ iterTagList tg es
end

/-- element.findall('.//tag'): all proper descendants with the given tag,
in document order. -/
def findallDesc (tg : String) : XmlElem → List XmlElem
  | XmlElem.node _ _ _ cs => iterTagList tg cs

/-- The namespaced TextRegion tag used by get_textregions. -/
def textRegionTag : String :=
  "\x7bhttp://schema.primaresearch.org/PAGE/gts/pagecontent/2013-07-15\x7dTextRegion"

/-- The namespaced Unicode tag used by get_textregions. -/
def unicodeTag : String :=
  "\x7bhttp://schema.primaresearch.org/PAGE/gts/pagecontent/2013-07-15\x7dUnicode"

/-- True for a lowercase ASCII letter, the character class [a-z]. -/
def isLowerAZ (c : Char) : Bool := decide ('a' ≤ c) && decide (c ≤ 'z')

/-- Match of the regex `type:[a-z]+;` anchored at the start of the
character list, returning the full matched token. Greedy matching of
[a-z]+ is exact here because ';' is not in [a-z]. -/
def typeTokenAt (cs : List Char) : Option (List Char) :=
  match cs with
  | 't' :: 'y' :: 'p' :: 'e' :: ':' :: rest =>
    let letters := rest.takeWhile isLowerAZ
    if letters.isEmpty then none
    else
      match rest.drop letters.length with
      | ';' :: _ => some ('t' :: 'y' :: 'p' :: 'e' :: ':' :: (letters ++ [';']))
      | _ => none
  | _ => none

/-- Scan for the first position where `type:[a-z]+;` matches
(re.search semantics: earliest match wins). -/
def searchTypeToken : List Char → Option (List Char)
  | [] => none
  | c :: rest =>
    match typeTokenAt (c :: rest) with
    | some tok => some tok
    | none => searchTypeToken rest

/-- `re.search(r'type:[a-z]+;', custom)` followed by `match.group()[5:-1]`
(htr_model_validation.py lines 135-139): the extracted region type, or None
when the pattern does not occur. -/
def searchType (s : String) : Option String :=
  (searchTypeToken s.data).map (fun tok => String.mk ((tok.drop 5).dropLast))

/-- A text region as get_textregions returns it: id attribute (None when
absent), extracted type (None when the custom attribute has no type token)
and the text lines (each line is element.text of one Unicode descendant,
None for an empty element). -/
structure TextRegion where
  id : Option String
  type : Option String
  textline : List (Option String)
deriving DecidableEq

/-- Python `type not in textregion_types` negated, for an optional type
against a list of type labels: None is never a member of a list of
strings. -/
def optTypeIn (t : Option String) (tys : List String) : Bool :=
  match t with
  | some s => tys.contains s
  | none => false

/-- The loop body of htr_model_validation.get_textregions (lines 124-161)
over the list of TextRegion elements produced by page_xml.iter. For each
region element: collect the Unicode descendants; read the custom attribute
(`none` propagates the TypeError that re.search raises on custom=None);
extract the type; skip the region when a type filter is given and the type
is not in it; read the id attribute; take the text of every Unicode
descendant except the last (the whole-region text); skip the region when
that line list is empty; otherwise keep [id, type, textline]. -/
def get_textregions_go (textregion_types : List String) :
    List XmlElem → Option (List TextRegion)
  | [] => some []
  | tr :: rest =>
    let unicode := findallDesc unicodeTag tr
    match tr.get? "custom" with
    | none => none
    | some custom =>
      let ty := searchType custom
      if !textregion_types.isEmpty && !optTypeIn ty textregion_types then
        get_textregions_go textregion_types rest
      else
        let id := tr.get? "id"
        let textline := (unicode.map XmlElem.text).dropLast
        if textline.isEmpty then get_textregions_go textregion_types rest
        else
          (get_textregions_go textregion_types rest).map
            (fun l => ⟨id, ty, textline⟩ :: l)

/-- htr_model_validation.get_textregions (lines 104-163) on an already
parsed page XML root element. -/
def get_textregions (page_xml : XmlElem) (textregion_types : List String) :
    Option (List TextRegion) :=
  get_textregions_go textregion_types (iterTag textRegionTag page_xml)

/-- One row of the textregions dataframe built by
htr_model_validation.main (columns of line 215; colid and docid are fixed
per run and omitted). Keys of the Python dict that have not been assigned
are modelled by the `none` / `[]` defaults; text_prediction none models
np.nan. -/
structure Entry where
  pageid : Nat
  pagenr : Nat
  tsid_reference : Option Nat := none
  tsid_prediction : Option Nat := none
  url_reference : Option String := none
  url_prediction : Option String := none
  textregionid : Option String := none
  type : Option String := none
  text_reference : List (Option String) := []
  text_prediction : Option (List (Option String)) := none
  is_valid : Bool := true
  warning_message : Option String := none
deriving DecidableEq

/-- One iteration of the region loop of htr_model_validation.main (lines
319-370): reset the entry fields for this reference region (including
is_valid := true and warning_message := None, lines 325-326), look the
region id up in the prediction regions (`in prediction_ids` plus
`prediction_ids.index`, modelled by find?), and flag the entry invalid when
the id is absent or the line counts differ. -/
def entryForRegion (prediction_textregions : List TextRegion) (base : Entry)
    (r : TextRegion) : Entry :=
  let e := { base with textregionid := r.id, type := r.type,
                       text_reference := r.textline,
                       warning_message := none, is_valid := true }
  let lenMsg := "Prediction and reference transcript do not have same length."
  let absentMsg := "No prediction transcript found for this textregion."
  match prediction_textregions.find? (fun q => q.id == r.id) with
  | some pr =>
    let e2 := { e with text_prediction := some pr.textline }
    if r.textline.length ≠ pr.textline.length then
      { e2 with warning_message := some lenMsg, is_valid := false }
    else e2
  | none =>
    { e with warning_message := some absentMsg, is_valid := false,
             text_prediction := none }

/-- The region loop of htr_model_validation.main: one entry is appended per
reference region. -/
def processRegions (prediction_textregions : List TextRegion) (base : Entry)
    (reference_textregions : List TextRegion) : List Entry :=
  reference_textregions.map (entryForRegion prediction_textregions base)

/-- Run configuration of htr_model_validation.main (the module constants
REFERENCE_VERSION, PREDICTION_VERSION, FILTER_STATUS, TEXTREGION_TYPES). -/
structure ValidationConfig where
  reference_version : String
  prediction_version : String
  filter_status : List String
  textregion_types : List String

/-- The per-page body of htr_model_validation.main (lines 221-370) for one
page, over a fetch function mapping a transcript URL to its parsed page
XML. Returns the entries appended for this page, or `none` when the Python
code raises:
- a None version index makes the warning's f-string evaluate
  `transcripts[None]` (TypeError, lines 235/258);
- "latest" on an empty transcript list makes `transcripts[0]` fail
  (IndexError, line 245);
- get_textregions raises on a region whose custom attribute is missing.
A page whose reference status is filtered out contributes no entry (line
249); a page with no non-empty textregions contributes one invalid entry;
note that when reference and prediction resolve to the same index the code
only sets is_valid := false without skipping the page (lines 272-281), and
the region loop then resets is_valid := true. -/
def processPage (cfg : ValidationConfig) (fetch : String → XmlElem)
    (page : TPage) : Option (List Entry) :=
  let transcripts := page.transcripts
  let e0 : Entry := { pageid := page.pageId, pagenr := page.pageNr, is_valid := true }
  match get_page_version_index transcripts cfg.reference_version with
  | none => none
  | some reference_index =>
    match transcripts.get? reference_index with
    | none => none
    | some reference_transcript =>
      if !cfg.filter_status.isEmpty &&
          !cfg.filter_status.contains reference_transcript.status then
        some []
      else
        let e1 := { e0 with tsid_reference := some reference_transcript.tsId,
                            url_reference := some reference_transcript.url }
        match get_page_version_index transcripts cfg.prediction_version with
        | none => none
        | some prediction_index =>
          match transcripts.get? prediction_index with
          | none => none
          | some prediction_transcript =>
            let e2 := { e1 with
              tsid_prediction := some prediction_transcript.tsId,
              url_prediction := some prediction_transcript.url }
            let sameMsg := "Reference and prediction transcript are the same."
            let e3 :=
              if reference_index = prediction_index then
                { e2 with warning_message := some sameMsg, is_valid := false }
              else e2
            match get_textregions (fetch reference_transcript.url)
                cfg.textregion_types with
            | none => none
            | some reference_textregions =>
              let noRefMsg := "No non-empty textregions (of selected types) found for reference transcript."
              let noPredMsg := "No non-empty textregions (of selected types) found for prediction transcript."
              if reference_textregions.isEmpty then
                some [{ e3 with warning_message := some noRefMsg,
                                is_valid := false }]
              else
                match get_textregions (fetch prediction_transcript.url)
                    cfg.textregion_types with
                | none => none
                | some prediction_textregions =>
                  if prediction_textregions.isEmpty then
                    some [{ e3 with warning_message := some noPredMsg,
                                    is_valid := false }]
                  else
                    some (processRegions prediction_textregions e3
                      reference_textregions)

/-- The global CER/WER input collection of htr_model_validation.main (lines
383-388): walk the entries in order and, for the valid ones only, extend
the reference and prediction line lists (a valid entry always carries a
prediction list; getD [] is never hit on rows the code produces). -/
def globalTexts (entries : List Entry) :
    List (Option String) × List (Option String) :=
  entries.foldl
    (fun acc e =>
      if e.is_valid then
        (acc.1 ++ e.text_reference, acc.2 ++ e.text_prediction.getD [])
      else acc)
    ([], [])

/-- The latest-transcript scan of download_latest_pagexml.main (lines
67-94). State: running maximum timestamp and its (last attaining) index,
and the same pair restricted to status "GT" when the collection is
HGB_Training (`isTraining`). datetime.min is modelled by `none` (every real
timestamp exceeds it); datetime.fromtimestamp(ts/1000) is strictly
monotone in ts, so comparing raw timestamps is equivalent. -/
def latestIndexGo (isTraining : Bool) :
    List Transcript → Nat → Option Int → Option Int → Option Nat → Option Nat →
      Option Nat × Option Nat
  | [], _, _, _, iL, iG => (iL, iG)
  | t :: rest, i, bL, bG, iL, iG =>
    let bL2 : Int :=
      match bL with
      | none => t.timestamp
      | some b => max b t.timestamp
    let iL2 := if bL2 = t.timestamp then some i else iL
    if isTraining && (t.status == "GT") then
      let bG2 : Int :=
        match bG with
        | none => t.timestamp
        | some b => max b t.timestamp
      let iG2 := if bG2 = t.timestamp then some i else iG
      latestIndexGo isTraining rest (i + 1) (some bL2) (some bG2) iL2 iG2
    else
      latestIndexGo isTraining rest (i + 1) (some bL2) bG iL2 iG

/-- The derived latest-transcript index of download_latest_pagexml.main
(lines 67-94 plus the GT override of lines 92-94): the index of the
maximum-timestamp transcript, replaced by the index of the
maximum-timestamp GT transcript when one exists (HGB_Training only). -/
def latestIndex (isTraining : Bool) (ts : List Transcript) : Option Nat :=
  let p := latestIndexGo isTraining ts 0 none none none none
  if p.2 ≠ none ∧ p.1 ≠ p.2 then p.2 else p.1

/-- Scenario page 1 (spec section 8): excluded by the page-number filter. -/
def scenPage1 : TPage := ⟨1, 11, [⟨101, "NEW", none, "u1", 100⟩]⟩

/-- Scenario page 2: latest transcript status "DONE", in the exclusion
set. -/
def scenPage2 : TPage := ⟨2, 12, [⟨102, "DONE", none, "u2", 100⟩]⟩

/-- Scenario page 3: not literally excluded; dropped only by the
following-page cutoff. -/
def scenPage3 : TPage := ⟨3, 13, [⟨103, "NEW", none, "u3", 100⟩]⟩

/-- The scenario document of spec section 8. -/
def scenDoc : TDoc := ⟨900, [scenPage1, scenPage2, scenPage3]⟩

/-- A page whose transcript list is not newest-first: the transcript at
index 0 has timestamp 100 and status "NEW", while the maximum-timestamp
transcript (index 1, timestamp 200) has status "DONE". -/
def stalePage : TPage :=
  ⟨1, 7, [⟨201, "NEW", none, "u1", 100⟩, ⟨202, "DONE", none, "u2", 200⟩]⟩

/-- Page XML with a single paragraph region "r1" holding one text line "a"
(the second Unicode element is the trailing whole-region text that line
extraction drops). -/
def c1xml : XmlElem :=
  XmlElem.node "Page" [] none
    [XmlElem.node textRegionTag [("id", "r1"), ("custom", "type:paragraph;")]
      none
      [XmlElem.node unicodeTag [] (some "a") [],
       XmlElem.node unicodeTag [] (some "a") []]]

/-- A page with a single transcript whose toolName is "Model: 50719": both
the reference keyword "latest" and the prediction keyword "Model: 50719"
resolve to index 0. -/
def c1page : TPage := ⟨1, 11, [⟨5, "GT", some "Model: 50719", "u", 100⟩]⟩

/-- The htr_model_validation configuration for the C1 run: reference
"latest", prediction "Model: 50719", no status filter, no type filter. -/
def c1cfg : ValidationConfig := ⟨"latest", "Model: 50719", [], []⟩

/-- The entry htr_model_validation.main produces for c1page: despite
reference and prediction resolving to the same transcript, the entry is
valid and carries no warning. -/
def c1entry : Entry :=
  { pageid := 11, pagenr := 1, tsid_reference := some 5,
    tsid_prediction := some 5, url_reference := some "u",
    url_prediction := some "u", textregionid := some "r1",
    type := some "paragraph", text_reference := [some "a"],
    text_prediction := some [some "a"], is_valid := true,
    warning_message := none }

/-- Page XML whose single region "r1" has one extracted line that is the
empty string (two Unicode descendants; the trailing whole-region text is
dropped): a region with zero non-empty text lines. -/
def c9xml : XmlElem :=
  XmlElem.node "Page" [] none
    [XmlElem.node textRegionTag [("id", "r1"), ("custom", "type:header;")]
      none
      [XmlElem.node unicodeTag [] (some "") [],
       XmlElem.node unicodeTag [] (some "ab") []]]

/-- A text line counts as non-empty when it is present and not the empty
string (the reading of "non-empty text line" in the spec's data model). -/
def nonEmptyLine : Option String → Bool
  | some s => !(s == "")
  | none => false

theorem selectPagesFrom_following_false (dropNr : List Nat)
    (dropStatus : List String) (pages : List TPage)
    (h : ∀ p ∈ pages, p.transcripts ≠ []) :
    selectPagesFrom dropNr dropStatus false false pages =
      some ((pages.filter
        (fun p => !literallyDropped dropNr dropStatus p)).map
          (fun p => (p.pageNr, p.pageId))) := by
  induction pages with
  | nil => rfl
  | cons p rest ih =>
    have hp : p.transcripts ≠ [] := h p (List.mem_cons_self p rest)
    have hrest : ∀ q ∈ rest, q.transcripts ≠ [] :=
      fun q hq => h q (List.mem_cons_of_mem p hq)
    obtain ⟨t, ts, ht⟩ : ∃ t ts, p.transcripts = t :: ts := by
      cases hts : p.transcripts with
      | nil => exact absurd hts hp
      | cons a l => exact ⟨a, l, rfl⟩
    by_cases h1 : p.pageNr ∈ dropNr
    · simp [selectPagesFrom, literallyDropped, h1, ih hrest, List.filter_cons]
    · by_cases h2 : t.status ∈ dropStatus
      · simp [selectPagesFrom, literallyDropped, ht, h1, h2, ih hrest,
          List.filter_cons]
      · simp [selectPagesFrom, literallyDropped, ht, h1, h2, ih hrest,
          List.filter_cons]

theorem selectPagesFrom_break (dropNr : List Nat) (dropStatus : List String)
    (following : Bool) (pages : List TPage) :
    selectPagesFrom dropNr dropStatus following true pages = some [] := by
  cases pages <;> rfl

theorem firstStatusExcluded_mem (dropNr : List Nat) (dropStatus : List String)
    (pages : List TPage) (p0 : TPage)
    (h : firstStatusExcluded dropNr dropStatus pages = some p0) :
    p0 ∈ pages := by
  induction pages with
  | nil => cases h
  | cons p rest ih =>
    by_cases h1 : p.pageNr ∈ dropNr
    · simp only [firstStatusExcluded, if_pos h1] at h
      exact List.mem_cons_of_mem p (ih h)
    · cases hts : p.transcripts.head? with
      | none =>
        simp only [firstStatusExcluded, if_neg h1, hts] at h
        exact Option.noConfusion h
      | some t =>
        by_cases h2 : t.status ∈ dropStatus
        · simp only [firstStatusExcluded, if_neg h1, hts, if_pos h2,
            Option.some.injEq] at h
          exact h ▸ List.mem_cons_self p rest
        · simp only [firstStatusExcluded, if_neg h1, hts, if_neg h2] at h
          exact List.mem_cons_of_mem p (ih h)

theorem selectPagesFrom_cutoff (dropNr : List Nat) (dropStatus : List String)
    (pages : List TPage) (sel : List (Nat × Nat)) (p0 : TPage)
    (hsort : List.Pairwise pageNrLt pages)
    (hsel : selectPagesFrom dropNr dropStatus true false pages = some sel)
    (hfirst : firstStatusExcluded dropNr dropStatus pages = some p0) :
    ∀ x ∈ sel, x.1 < p0.pageNr := by
  induction pages generalizing sel with
  | nil => cases hfirst
  | cons p rest ih =>
    have hsort2 := (List.pairwise_cons.mp hsort).2
    have hlt := (List.pairwise_cons.mp hsort).1
    by_cases h1 : p.pageNr ∈ dropNr
    · simp only [selectPagesFrom, if_pos h1] at hsel
      simp only [firstStatusExcluded, if_pos h1] at hfirst
      exact ih _ hsort2 hsel hfirst
    · cases hts : p.transcripts.head? with
      | none =>
        simp only [selectPagesFrom, if_neg h1, hts] at hsel
        exact Option.noConfusion hsel
      | some t =>
        by_cases h2 : t.status ∈ dropStatus
        · simp only [selectPagesFrom, if_neg h1, hts, if_pos h2] at hsel
          rw [selectPagesFrom_break] at hsel
          injection hsel with hsel
          subst hsel
          intro x hx
          cases hx
        · simp only [selectPagesFrom, if_neg h1, hts, if_neg h2] at hsel
          simp only [firstStatusExcluded, if_neg h1, hts, if_neg h2] at hfirst
          cases hrest : selectPagesFrom dropNr dropStatus true false rest with
          | none => rw [hrest] at hsel; exact Option.noConfusion hsel
          | some selr =>
            rw [hrest] at hsel
            simp only [Option.map_some', Option.some.injEq] at hsel
            subst hsel
            intro x hx
            rcases List.mem_cons.mp hx with hx | hx
            · subst hx
              exact hlt p0
                (firstStatusExcluded_mem dropNr dropStatus rest p0 hfirst)
            · exact ih _ hsort2 hrest hfirst x hx

/-- Claim C2: in the page-selection filter, with the following-page cutoff
enabled every page numbered past the first status-excluded page is
excluded (for page lists ordered by increasing page number); with the
cutoff disabled exactly the literally excluded pages are skipped; and in
the 3-page scenario (page 1 dropped by number, page 2 by status "DONE",
cutoff enabled) page 3 is also excluded and zero pages are submitted. -/
theorem spec_C2 :
    (∀ (dropNr : List Nat) (dropStatus : List String) (pages : List TPage)
        (sel : List (Nat × Nat)) (p0 : TPage),
        List.Pairwise pageNrLt pages →
        selectPagesFrom dropNr dropStatus true false pages = some sel →
        firstStatusExcluded dropNr dropStatus pages = some p0 →
        ∀ q ∈ pages, p0.pageNr < q.pageNr → ∀ pid, (q.pageNr, pid) ∉ sel)
  ∧ (∀ (dropNr : List Nat) (dropStatus : List String) (pages : List TPage),
        (∀ p ∈ pages, p.transcripts ≠ []) →
        selectPagesFrom dropNr dropStatus false false pages =
          some ((pages.filter
            (fun p => !literallyDropped dropNr dropStatus p)).map
              (fun p => (p.pageNr, p.pageId))))
  ∧ selectPagesFrom [1] ["DONE"] true false scenDoc.pages = some []
  ∧ processDocument true true true [1] ["DONE"] true scenDoc = some [] := by
  refine ⟨?_, selectPagesFrom_following_false, by decide, by decide⟩
  intro dropNr dropStatus pages sel p0 hsort hsel hfirst q _ hgt pid hmem
  have hx := selectPagesFrom_cutoff dropNr dropStatus pages sel p0 hsort hsel
    hfirst (q.pageNr, pid) hmem
  simp only at hx
  omega

/-- Witness for C2: the cutoff statement instantiated on the scenario
document (first status-excluded page is page 2, selection is empty), and
the disabled-cutoff statement instantiated there as well. -/
theorem spec_C2_witness :
    (∀ q ∈ scenDoc.pages, scenPage2.pageNr < q.pageNr →
        ∀ pid, (q.pageNr, pid) ∉ ([] : List (Nat × Nat)))
  ∧ selectPagesFrom [1] ["DONE"] false false scenDoc.pages =
      some ((scenDoc.pages.filter
        (fun p => !literallyDropped [1] ["DONE"] p)).map
          (fun p => (p.pageNr, p.pageId))) := by
  constructor
  · exact spec_C2.1 [1] ["DONE"] scenDoc.pages [] scenPage2
      (by decide) (by decide) (by decide)
  · exact spec_C2.2.1 [1] ["DONE"] scenDoc.pages (by decide)

/-- Counterexample for C3: the claim says the following-page cutoff
defaults to disabled; in collection_transcription.py the constant
PAGE_DROP_STATUS_FOLLOWING is set to True. -/
theorem spec_C3_counterexample : ¬ PAGE_DROP_STATUS_FOLLOWING = false := by
  decide

/-- Claim C3 (amended): the following-page cutoff is a source-level
configurable constant which this repository sets to enabled (True); when
it is set to disabled, exactly the literally excluded pages and statuses
are skipped and no subsequent page is dropped. -/
theorem spec_C3 :
    PAGE_DROP_STATUS_FOLLOWING = true
  ∧ (∀ (dropNr : List Nat) (dropStatus : List String) (pages : List TPage),
      (∀ p ∈ pages, p.transcripts ≠ []) →
      selectPagesFrom dropNr dropStatus false false pages =
        some ((pages.filter
          (fun p => !literallyDropped dropNr dropStatus p)).map
            (fun p => (p.pageNr, p.pageId)))) :=
  ⟨rfl, selectPagesFrom_following_false⟩

/-- Witness for C3: with the cutoff disabled, a page following a
status-dropped page is still selected (scenario pages, drop lists [1] and
["DONE"]). -/
theorem spec_C3_witness :
    PAGE_DROP_STATUS_FOLLOWING = true
  ∧ selectPagesFrom [1] ["DONE"] false false scenDoc.pages = some [(3, 13)] := by
  refine ⟨spec_C3.1, ?_⟩
  rw [spec_C3.2 [1] ["DONE"] scenDoc.pages (by decide)]
  decide

/-- Claim C10: a document whose page selection is empty submits no job at
all, and every submitted job carries the non-empty selected page list. -/
theorem spec_C10 (doP2pala doLinefinder doHtr : Bool) (dropNr : List Nat)
    (dropStatus : List String) (following : Bool) (doc : TDoc)
    (jobs : List JobRequest)
    (hjobs : processDocument doP2pala doLinefinder doHtr dropNr dropStatus
        following doc = some jobs) :
    (selectPagesFrom dropNr dropStatus following false doc.pages = some [] →
        jobs = [])
  ∧ ∀ j ∈ jobs, j.pages ≠ [] := by
  unfold processDocument at hjobs
  cases hsel : selectPagesFrom dropNr dropStatus following false doc.pages with
  | none => rw [hsel] at hjobs; exact Option.noConfusion hjobs
  | some sel =>
    rw [hsel] at hjobs
    cases sel with
    | nil =>
      simp only [List.isEmpty_nil, if_true, Option.some.injEq] at hjobs
      subst hjobs
      exact ⟨fun _ => rfl, fun j hj => absurd hj (List.not_mem_nil j)⟩
    | cons s ss =>
      simp only [List.isEmpty_cons, Bool.false_eq_true, if_false,
        Option.some.injEq] at hjobs
      subst hjobs
      constructor
      · intro h0
        injection h0 with h0
        exact absurd h0 (List.cons_ne_nil s ss)
      · intro j hj
        simp only [List.mem_append] at hj
        rcases hj with (hj | hj) | hj
        · cases doP2pala
          · simp at hj
          · simp only [if_true, List.mem_singleton] at hj
            subst hj
            simp
        · cases doLinefinder
          · simp at hj
          · simp only [if_true, List.mem_singleton] at hj
            subst hj
            simp
        · cases doHtr
          · simp at hj
          · simp only [if_true, List.mem_singleton] at hj
            subst hj
            simp

/-- Witness for C10: the scenario document selects zero pages, so the run
submits no job. -/
theorem spec_C10_witness :
    (selectPagesFrom [1] ["DONE"] true false scenDoc.pages = some [] →
        ([] : List JobRequest) = [])
  ∧ ∀ j ∈ ([] : List JobRequest), j.pages ≠ [] :=
  spec_C10 true true true [1] ["DONE"] true scenDoc [] (by decide)

theorem pollUntilFinished_spec (statuses : Nat → String) :
    ∀ (fuel i k : Nat), pollUntilFinished statuses i fuel = some k →
      statuses k = "FINISHED" ∧ i ≤ k ∧
        ∀ j, i ≤ j → j < k → statuses j ≠ "FINISHED" := by
  intro fuel
  induction fuel with
  | zero => intro i k h; exact Option.noConfusion h
  | succ f ih =>
    intro i k h
    by_cases hs : statuses i = "FINISHED"
    · simp only [pollUntilFinished, if_pos hs, Option.some.injEq] at h
      subst h
      exact ⟨hs, le_refl i, fun j hij hjk => absurd hij (by omega)⟩
    · simp only [pollUntilFinished, if_neg hs] at h
      obtain ⟨h1, h2, h3⟩ := ih (i + 1) k h
      refine ⟨h1, by omega, fun j hij hjk => ?_⟩
      by_cases hji : j = i
      · exact hji ▸ hs
      · exact h3 j (by omega) hjk

theorem pollUntilFinished_none (statuses : Nat → String)
    (h : ∀ k, statuses k ≠ "FINISHED") :
    ∀ fuel i, pollUntilFinished statuses i fuel = none := by
  intro fuel
  induction fuel with
  | zero => intro i; rfl
  | succ f ih =>
    intro i
    simp only [pollUntilFinished, if_neg (h i)]
    exact ih (i + 1)

/-- Claim C7: both job-submission operations raise on a non-success
submission response; when the submission succeeds they return normally
only after some poll observed the terminal status "FINISHED" (and never
while every observed status differs from it); the polling loop has no
timeout, so when no poll ever returns "FINISHED" the loop runs past every
fuel bound; the poll interval is the fixed 10 seconds. -/
theorem spec_C7 :
    (∀ (statuses : Nat → String) (fuel : Nat),
        run_layout_analysis false statuses fuel =
          some (Except.error "Layout analysis execution failed"))
  ∧ (∀ (statuses : Nat → String) (fuel : Nat),
        run_text_recognition false statuses fuel =
          some (Except.error "Text recognition execution failed"))
  ∧ (∀ (statuses : Nat → String) (fuel : Nat),
        run_layout_analysis true statuses fuel = some (Except.ok ()) →
        ∃ k, statuses k = "FINISHED" ∧ ∀ j < k, statuses j ≠ "FINISHED")
  ∧ (∀ (statuses : Nat → String) (fuel : Nat),
        run_text_recognition true statuses fuel = some (Except.ok ()) →
        ∃ k, statuses k = "FINISHED" ∧ ∀ j < k, statuses j ≠ "FINISHED")
  ∧ (∀ (statuses : Nat → String), (∀ k, statuses k ≠ "FINISHED") →
        ∀ fuel, run_layout_analysis true statuses fuel = none ∧
          run_text_recognition true statuses fuel = none)
  ∧ JOB_POLL_INTERVAL_SECONDS = 10 := by
  refine ⟨fun _ _ => rfl, fun _ _ => rfl, ?_, ?_, ?_, rfl⟩
  · intro statuses fuel h
    unfold run_layout_analysis at h
    simp only [if_true] at h
    cases hp : pollUntilFinished statuses 0 fuel with
    | none => rw [hp] at h; exact Option.noConfusion h
    | some k =>
      obtain ⟨h1, _, h3⟩ := pollUntilFinished_spec statuses fuel 0 k hp
      exact ⟨k, h1, fun j hj => h3 j (Nat.zero_le j) hj⟩
  · intro statuses fuel h
    unfold run_text_recognition at h
    simp only [if_true] at h
    cases hp : pollUntilFinished statuses 0 fuel with
    | none => rw [hp] at h; exact Option.noConfusion h
    | some k =>
      obtain ⟨h1, _, h3⟩ := pollUntilFinished_spec statuses fuel 0 k hp
      exact ⟨k, h1, fun j hj => h3 j (Nat.zero_le j) hj⟩
  · intro statuses h fuel
    constructor
    · unfold run_layout_analysis
      simp only [if_true, pollUntilFinished_none statuses h fuel 0,
        Option.map_none']
    · unfold run_text_recognition
      simp only [if_true, pollUntilFinished_none statuses h fuel 0,
        Option.map_none']

/-- Witness for C7: a run whose third poll observes "FINISHED" returns
normally, and the terminal poll exists; a run with a failed submission
raises; a run that never observes "FINISHED" is still polling at fuel
100. -/
theorem spec_C7_witness :
    (∃ k, (fun n => if n = 2 then "FINISHED" else "RUNNING") k = "FINISHED" ∧
        ∀ j < k, (fun n => if n = 2 then "FINISHED" else "RUNNING") j ≠
          "FINISHED")
  ∧ run_layout_analysis false (fun _ => "RUNNING") 3 =
      some (Except.error "Layout analysis execution failed")
  ∧ run_layout_analysis true (fun _ => "RUNNING") 100 = none := by
  refine ⟨?_, ?_, ?_⟩
  · exact spec_C7.2.2.1 (fun n => if n = 2 then "FINISHED" else "RUNNING")
      5 (by rfl)
  · exact spec_C7.1 (fun _ => "RUNNING") 3
  · exact (spec_C7.2.2.2.2.1 (fun _ => "RUNNING") (by
      intro k
      show "RUNNING" ≠ "FINISHED"
      decide) 100).1

theorem get_page_xml_step (resp : Nat → HttpResult) (attempt m : Nat)
    (h : isFailure (resp attempt) = true) :
    get_page_xml resp attempt (m + 1) = get_page_xml resp (attempt + 1) m := by
  cases hr : resp attempt with
  | ok t => rw [hr] at h; simp [isFailure] at h
  | serverError => simp only [get_page_xml, hr]
  | otherStatus => simp only [get_page_xml, hr]
  | connError => simp only [get_page_xml, hr]

theorem get_page_xml_ne_ok_none (resp : Nat → HttpResult) :
    ∀ (n attempt : Nat), get_page_xml resp attempt n ≠ Except.ok none := by
  intro n
  induction n with
  | zero =>
    intro attempt h
    cases hr : resp attempt with
    | ok t =>
      simp only [get_page_xml, hr] at h
      exact Option.noConfusion (Except.ok.inj h)
    | serverError =>
      simp only [get_page_xml, hr] at h
      exact Except.noConfusion h
    | otherStatus =>
      simp only [get_page_xml, hr] at h
      exact Except.noConfusion h
    | connError =>
      simp only [get_page_xml, hr] at h
      exact Except.noConfusion h
  | succ m ih =>
    intro attempt h
    cases hr : resp attempt with
    | ok t =>
      simp only [get_page_xml, hr] at h
      exact Option.noConfusion (Except.ok.inj h)
    | serverError =>
      simp only [get_page_xml, hr] at h
      exact ih (attempt + 1) h
    | otherStatus =>
      simp only [get_page_xml, hr] at h
      exact ih (attempt + 1) h
    | connError =>
      simp only [get_page_xml, hr] at h
      exact ih (attempt + 1) h

theorem get_page_xml_exhausted (resp : Nat → HttpResult) :
    ∀ (n attempt : Nat),
      (∀ k, k ≤ n → isFailure (resp (attempt + k)) = true) →
      ∃ msg, get_page_xml resp attempt n = Except.error msg := by
  intro n
  induction n with
  | zero =>
    intro attempt h
    have h0 := h 0 (le_refl 0)
    rw [Nat.add_zero] at h0
    cases hr : resp attempt with
    | ok t => rw [hr] at h0; simp [isFailure] at h0
    | serverError => exact ⟨"url invalid?", by simp only [get_page_xml, hr]⟩
    | otherStatus => exact ⟨"url invalid?", by simp only [get_page_xml, hr]⟩
    | connError => exact ⟨"Connection error", by simp only [get_page_xml, hr]⟩
  | succ m ih =>
    intro attempt h
    have h0 := h 0 (Nat.zero_le _)
    rw [Nat.add_zero] at h0
    rw [get_page_xml_step resp attempt m h0]
    refine ih (attempt + 1) (fun k hk => ?_)
    have := h (k + 1) (by omega)
    rwa [show attempt + (k + 1) = attempt + 1 + k from by omega] at this

theorem get_page_xml_first_success (resp : Nat → HttpResult) :
    ∀ (k n attempt : Nat) (t : String), k ≤ n →
      (∀ j, j < k → isFailure (resp (attempt + j)) = true) →
      resp (attempt + k) = HttpResult.ok t →
      get_page_xml resp attempt n = Except.ok (some t) := by
  intro k
  induction k with
  | zero =>
    intro n attempt t _ _ hok
    rw [Nat.add_zero] at hok
    cases n with
    | zero => simp only [get_page_xml, hok]
    | succ m => simp only [get_page_xml, hok]
  | succ kk ih =>
    intro n attempt t hkn hfail hok
    obtain ⟨m, rfl⟩ : ∃ m, n = m + 1 := ⟨n - 1, by omega⟩
    have h0 : isFailure (resp attempt) = true := by
      have := hfail 0 (Nat.succ_pos kk)
      rwa [Nat.add_zero] at this
    rw [get_page_xml_step resp attempt m h0]
    refine ih m (attempt + 1) t (by omega) (fun j hj => ?_) ?_
    · have := hfail (j + 1) (by omega)
      rwa [show attempt + (j + 1) = attempt + 1 + j from by omega] at this
    · rwa [show attempt + 1 + kk = attempt + (kk + 1) from by omega]

/-- Counterexample for C4: the claim covers the legacy
connectTranskribus.get_page_xml as well, yet that version returns Python
None for a non-success, non-500 HTTP status on the very first attempt —
the error is silently swallowed rather than surfaced. -/
theorem spec_C4_counterexample :
    legacy_get_page_xml (fun _ => HttpResult.otherStatus) 0 false 1 =
      some (Except.ok none) := rfl

/-- Claim C4 (amended): connect_transkribus.get_page_xml retries a
transient failure with a fixed 60-second backoff up to the explicit retry
bound (default 60); when a retry within the bound succeeds the page text
is returned, when all 61 attempts fail the call raises, and no execution
ever returns a null result. The legacy connectTranskribus version, by
contrast, returns None on a non-success non-500 status. -/
theorem spec_C4 :
    (∀ (resp : Nat → HttpResult) (attempt n : Nat),
        get_page_xml resp attempt n ≠ Except.ok none)
  ∧ (∀ (resp : Nat → HttpResult) (attempt n : Nat),
        (∀ k, k ≤ n → isFailure (resp (attempt + k)) = true) →
        ∃ msg, get_page_xml resp attempt n = Except.error msg)
  ∧ (∀ (resp : Nat → HttpResult) (attempt n k : Nat) (t : String), k ≤ n →
        (∀ j, j < k → isFailure (resp (attempt + j)) = true) →
        resp (attempt + k) = HttpResult.ok t →
        get_page_xml resp attempt n = Except.ok (some t))
  ∧ GET_PAGE_XML_DEFAULT_RETRIES = 60
  ∧ GET_PAGE_XML_BACKOFF_SECONDS = 60 :=
  ⟨fun resp attempt n => get_page_xml_ne_ok_none resp n attempt,
   fun resp attempt n h => get_page_xml_exhausted resp n attempt h,
   fun resp attempt n k t hkn hf hok =>
     get_page_xml_first_success resp k n attempt t hkn hf hok,
   rfl, rfl⟩

/-- Witness for C4: with 60 retries available, a stream that fails on the
first two attempts and succeeds on the third yields the page text; a
stream that always returns a 500 exhausts the bound and raises. -/
theorem spec_C4_witness :
    get_page_xml
      (fun a => if a < 2 then HttpResult.serverError else HttpResult.ok "x")
      0 GET_PAGE_XML_DEFAULT_RETRIES = Except.ok (some "x")
  ∧ ∃ msg, get_page_xml (fun _ => HttpResult.serverError) 0 3 =
      Except.error msg := by
  constructor
  · exact spec_C4.2.2.1
      (fun a => if a < 2 then HttpResult.serverError else HttpResult.ok "x")
      0 GET_PAGE_XML_DEFAULT_RETRIES 2 "x" (by decide)
      (by
        intro j hj
        interval_cases j <;> rfl)
      (by rfl)
  · exact spec_C4.2.1 (fun _ => HttpResult.serverError) 0 3
      (by intro k hk; rfl)

theorem keywordMatch_false (kw : String) (t : Transcript)
    (h1 : ∀ tn, t.toolName = some tn → reSearch kw tn = false)
    (h2 : t.status ≠ kw) : keywordMatch kw t = false := by
  unfold keywordMatch
  cases ht : t.toolName with
  | none => simp [h2]
  | some tn => simp [h1 tn ht, h2]

theorem keywordMatch_true (kw : String) (t : Transcript)
    (h : (∃ tn, t.toolName = some tn ∧ reSearch kw tn = true) ∨
      t.status = kw) : keywordMatch kw t = true := by
  unfold keywordMatch
  rcases h with ⟨tn, htn, hs⟩ | hst
  · rw [htn]
    simp [hs]
  · simp [hst]

theorem legacyKeywordMatch_false (kw : String) (t : Transcript)
    (h1 : ∀ tn, t.toolName = some tn → reSearch kw tn = false) :
    legacyKeywordMatch kw t = false := by
  unfold legacyKeywordMatch
  cases ht : t.toolName with
  | none => rfl
  | some tn => exact h1 tn ht

theorem legacyKeywordMatch_true (kw : String) (t : Transcript)
    (h : ∃ tn, t.toolName = some tn ∧ reSearch kw tn = true) :
    legacyKeywordMatch kw t = true := by
  unfold legacyKeywordMatch
  obtain ⟨tn, htn, hs⟩ := h
  rw [htn]
  exact hs

theorem get_page_version_index_go_none (kw : String) (ts : List Transcript)
    (h : ∀ t ∈ ts, keywordMatch kw t = false) :
    ∀ i, get_page_version_index_go kw i ts = none := by
  induction ts with
  | nil => intro i; rfl
  | cons t rest ih =>
    intro i
    have h0 := h t (List.mem_cons_self t rest)
    simp only [get_page_version_index_go, h0, Bool.false_eq_true, if_false]
    exact ih (fun q hq => h q (List.mem_cons_of_mem t hq)) (i + 1)

theorem get_page_version_index_go_append (kw : String)
    (pre : List Transcript) (t : Transcript) (post : List Transcript)
    (hpre : ∀ q ∈ pre, keywordMatch kw q = false)
    (ht : keywordMatch kw t = true) :
    ∀ i, get_page_version_index_go kw i (pre ++ t :: post) =
      some (i + pre.length) := by
  induction pre with
  | nil =>
    intro i
    simp only [List.nil_append, get_page_version_index_go, ht, if_true,
      List.length_nil, Nat.add_zero]
  | cons q qs ih =>
    intro i
    have h0 := hpre q (List.mem_cons_self q qs)
    simp only [List.cons_append, get_page_version_index_go, h0,
      Bool.false_eq_true, if_false, List.append_eq]
    rw [ih (fun r hr => hpre r (List.mem_cons_of_mem q hr)) (i + 1)]
    have harith : i + 1 + qs.length = i + (q :: qs).length := by
      simp [List.length_cons]
      omega
    rw [harith]

theorem legacy_get_page_version_index_go_none (kw : String)
    (ts : List Transcript)
    (h : ∀ t ∈ ts, legacyKeywordMatch kw t = false) :
    ∀ i, legacy_get_page_version_index_go kw i ts = none := by
  induction ts with
  | nil => intro i; rfl
  | cons t rest ih =>
    intro i
    have h0 := h t (List.mem_cons_self t rest)
    simp only [legacy_get_page_version_index_go, h0, Bool.false_eq_true,
      if_false]
    exact ih (fun q hq => h q (List.mem_cons_of_mem t hq)) (i + 1)

theorem legacy_get_page_version_index_go_append (kw : String)
    (pre : List Transcript) (t : Transcript) (post : List Transcript)
    (hpre : ∀ q ∈ pre, legacyKeywordMatch kw q = false)
    (ht : legacyKeywordMatch kw t = true) :
    ∀ i, legacy_get_page_version_index_go kw i (pre ++ t :: post) =
      some (i + pre.length) := by
  induction pre with
  | nil =>
    intro i
    simp only [List.nil_append, legacy_get_page_version_index_go, ht, if_true,
      List.length_nil, Nat.add_zero]
  | cons q qs ih =>
    intro i
    have h0 := hpre q (List.mem_cons_self q qs)
    simp only [List.cons_append, legacy_get_page_version_index_go, h0,
      Bool.false_eq_true, if_false, List.append_eq]
    rw [ih (fun r hr => hpre r (List.mem_cons_of_mem q hr)) (i + 1)]
    have harith : i + 1 + qs.length = i + (q :: qs).length := by
      simp [List.length_cons]
      omega
    rw [harith]

/-- Counterexample for C5: the claim also names the legacy
validateHtrModel.get_page_version_index, but that version never compares
the status: for a transcript list whose only transcript has status "GT"
and no tool name, the keyword "GT" (which equals that status and is not
"latest") resolves to None instead of index 0. -/
theorem spec_C5_counterexample :
    legacy_get_page_version_index
      [⟨1, "GT", none, "u", 0⟩] "GT" = none
  ∧ (⟨1, "GT", none, "u", 0⟩ : Transcript).status = "GT"
  ∧ ("GT" : String) ≠ "latest" := by decide

/-- Claim C5 (amended): both get_page_version_index implementations are
total (the embedding returns an Option, never an exception). For the
htr_model_validation version, a non-"latest" keyword contained in no tool
name and equal to no status resolves to None, and the first transcript
whose tool name contains the keyword or whose status equals the keyword is
resolved to its index. The legacy validateHtrModel version consults only
tool names: those two statements hold for it with the status clause
dropped. -/
theorem spec_C5 :
    (∀ (transcripts : List Transcript) (kw : String), kw ≠ "latest" →
        (∀ t ∈ transcripts,
            (∀ tn, t.toolName = some tn → reSearch kw tn = false) ∧
              t.status ≠ kw) →
        get_page_version_index transcripts kw = none)
  ∧ (∀ (pre : List Transcript) (t : Transcript) (post : List Transcript)
        (kw : String), kw ≠ "latest" →
        (∀ q ∈ pre,
            (∀ tn, q.toolName = some tn → reSearch kw tn = false) ∧
              q.status ≠ kw) →
        ((∃ tn, t.toolName = some tn ∧ reSearch kw tn = true) ∨
            t.status = kw) →
        get_page_version_index (pre ++ t :: post) kw = some pre.length)
  ∧ (∀ (transcripts : List Transcript) (kw : String), kw ≠ "latest" →
        (∀ t ∈ transcripts, ∀ tn, t.toolName = some tn →
            reSearch kw tn = false) →
        legacy_get_page_version_index transcripts kw = none)
  ∧ (∀ (pre : List Transcript) (t : Transcript) (post : List Transcript)
        (kw : String), kw ≠ "latest" →
        (∀ q ∈ pre, ∀ tn, q.toolName = some tn → reSearch kw tn = false) →
        (∃ tn, t.toolName = some tn ∧ reSearch kw tn = true) →
        legacy_get_page_version_index (pre ++ t :: post) kw =
          some pre.length) := by
  refine ⟨?_, ?_, ?_, ?_⟩
  · intro transcripts kw hkw h
    unfold get_page_version_index
    rw [if_neg hkw]
    exact get_page_version_index_go_none kw transcripts
      (fun t ht => keywordMatch_false kw t (h t ht).1 (h t ht).2) 0
  · intro pre t post kw hkw hpre ht
    unfold get_page_version_index
    rw [if_neg hkw]
    rw [get_page_version_index_go_append kw pre t post
      (fun q hq => keywordMatch_false kw q (hpre q hq).1 (hpre q hq).2)
      (keywordMatch_true kw t ht) 0]
    rw [Nat.zero_add]
  · intro transcripts kw hkw h
    unfold legacy_get_page_version_index
    rw [if_neg hkw]
    exact legacy_get_page_version_index_go_none kw transcripts
      (fun t ht => legacyKeywordMatch_false kw t (h t ht)) 0
  · intro pre t post kw hkw hpre ht
    unfold legacy_get_page_version_index
    rw [if_neg hkw]
    rw [legacy_get_page_version_index_go_append kw pre t post
      (fun q hq => legacyKeywordMatch_false kw q (hpre q hq))
      (legacyKeywordMatch_true kw t ht) 0]
    rw [Nat.zero_add]

/-- Witness for C5: keyword "Model: 50719" resolves to none on a list with
no matching tool name or status, and to index 1 on a list whose second
transcript's tool name contains it; the legacy version resolves a
tool-name match the same way. -/
theorem spec_C5_witness :
    get_page_version_index
      [⟨1, "NEW", none, "u", 0⟩] "Model: 50719" = none
  ∧ get_page_version_index
      [⟨1, "NEW", none, "u", 0⟩,
       ⟨2, "DONE", some "tool Model: 50719 x", "u", 0⟩]
      "Model: 50719" = some 1
  ∧ legacy_get_page_version_index
      [⟨1, "NEW", none, "u", 0⟩,
       ⟨2, "DONE", some "tool Model: 50719 x", "u", 0⟩]
      "Model: 50719" = some 1 := by
  refine ⟨?_, ?_, ?_⟩
  · exact spec_C5.1 [⟨1, "NEW", none, "u", 0⟩] "Model: 50719" (by decide)
      (by
        intro t htm
        constructor
        · intro tn htn
          simp only [List.mem_singleton] at htm
          subst htm
          exact Option.noConfusion htn
        · simp only [List.mem_singleton] at htm
          subst htm
          decide)
  · exact spec_C5.2.1 [⟨1, "NEW", none, "u", 0⟩]
      ⟨2, "DONE", some "tool Model: 50719 x", "u", 0⟩ [] "Model: 50719"
      (by decide)
      (by
        intro q hqm
        constructor
        · intro tn htn
          simp only [List.mem_singleton] at hqm
          subst hqm
          exact Option.noConfusion htn
        · simp only [List.mem_singleton] at hqm
          subst hqm
          decide)
      (Or.inl ⟨"tool Model: 50719 x", rfl, by decide⟩)
  · exact spec_C5.2.2.2 [⟨1, "NEW", none, "u", 0⟩]
      ⟨2, "DONE", some "tool Model: 50719 x", "u", 0⟩ [] "Model: 50719"
      (by decide)
      (by
        intro q hqm tn htn
        simp only [List.mem_singleton] at hqm
        subst hqm
        exact Option.noConfusion htn)
      ⟨"tool Model: 50719 x", rfl, by decide⟩

theorem get_textregions_go_nonempty (types : List String) :
    ∀ (els : List XmlElem) (res : List TextRegion),
      get_textregions_go types els = some res →
      ∀ r ∈ res, r.textline ≠ [] := by
  intro els
  induction els with
  | nil =>
    intro res h r hr
    injection h with h
    subst h
    cases hr
  | cons tr rest ih =>
    intro res h r hr
    cases hc : tr.get? "custom" with
    | none =>
      simp only [get_textregions_go, hc] at h
      exact Option.noConfusion h
    | some custom =>
      simp only [get_textregions_go, hc] at h
      split at h
      · exact ih res h r hr
      · split at h
        · exact ih res h r hr
        · rename_i htl
          cases hrest : get_textregions_go types rest with
          | none => rw [hrest] at h; exact Option.noConfusion h
          | some l =>
            rw [hrest] at h
            simp only [Option.map_some', Option.some.injEq] at h
            subst h
            rcases List.mem_cons.mp hr with hr | hr
            · subst hr
              simpa [List.isEmpty_iff] using htl
            · exact ih l hrest r hr

/-- Counterexample for C9: a region whose only extracted line is the empty
string has zero non-empty text lines, yet get_textregions returns it (the
code only skips a region whose extracted line list is empty), so it is not
excluded from the aggregates. -/
theorem spec_C9_counterexample :
    get_textregions c9xml [] =
      some [⟨some "r1", some "header", [some ""]⟩]
  ∧ nonEmptyLine (some "") = false := by decide

/-- Claim C9 (amended): text-region extraction skips exactly the regions
whose extracted line list (all Unicode descendants except the trailing
whole-region text) is empty: whenever it succeeds, every returned region
has a non-empty line list. A returned region's lines may still all be
empty strings. -/
theorem spec_C9 (page_xml : XmlElem) (types : List String)
    (res : List TextRegion)
    (h : get_textregions page_xml types = some res) :
    ∀ r ∈ res, r.textline ≠ [] :=
  get_textregions_go_nonempty types (iterTag textRegionTag page_xml) res h

/-- Witness for C9: on the single-region page XML with one line "a", the
returned region's line list is non-empty. -/
theorem spec_C9_witness :
    (⟨some "r1", some "paragraph", [some "a"]⟩ : TextRegion).textline ≠ [] :=
  spec_C9 c1xml [] [⟨some "r1", some "paragraph", [some "a"]⟩] (by decide)
    ⟨some "r1", some "paragraph", [some "a"]⟩ (List.mem_singleton.mpr rfl)

theorem globalTexts_go (entries : List Entry) :
    ∀ acc : List (Option String) × List (Option String),
      entries.foldl
        (fun acc e =>
          if e.is_valid then
            (acc.1 ++ e.text_reference, acc.2 ++ e.text_prediction.getD [])
          else acc) acc =
      (acc.1 ++ (((entries.filter (fun e => e.is_valid)).map
          (fun e => e.text_reference)).flatten),
       acc.2 ++ (((entries.filter (fun e => e.is_valid)).map
          (fun e => e.text_prediction.getD [])).flatten)) := by
  induction entries with
  | nil => intro acc; simp
  | cons e es ih =>
    intro acc
    by_cases hv : e.is_valid
    · simp only [List.foldl_cons, hv, if_true, ih, List.filter_cons,
        List.map_cons, List.flatten_cons, List.append_assoc]
    · simp only [List.foldl_cons, hv, Bool.false_eq_true, if_false, ih,
        List.filter_cons]

theorem globalTexts_eq (entries : List Entry) :
    globalTexts entries =
      ((((entries.filter (fun e => e.is_valid)).map
          (fun e => e.text_reference)).flatten),
       (((entries.filter (fun e => e.is_valid)).map
          (fun e => e.text_prediction.getD [])).flatten)) := by
  unfold globalTexts
  rw [globalTexts_go entries ([], [])]
  simp

theorem entryForRegion_invalid_of_find_none (pred : List TextRegion)
    (base : Entry) (x : TextRegion)
    (h : pred.find? (fun q => q.id == x.id) = none) :
    (entryForRegion pred base x).is_valid = false ∧
    (entryForRegion pred base x).warning_message =
      some "No prediction transcript found for this textregion." := by
  unfold entryForRegion
  rw [h]
  exact ⟨rfl, rfl⟩

theorem filter_valid_of_invalid (f : TextRegion → Entry)
    (keep : TextRegion → Bool)
    (h : ∀ x, keep x = false → (f x).is_valid = false) :
    ∀ l : List TextRegion,
      ((l.filter keep).map f).filter (fun e => e.is_valid) =
        (l.map f).filter (fun e => e.is_valid) := by
  intro l
  induction l with
  | nil => rfl
  | cons x xs ih =>
    by_cases hk : keep x
    · simp only [List.filter_cons, hk, if_true, List.map_cons]
      rw [ih]
    · have hkf : keep x = false := by simpa using hk
      have hv := h x hkf
      simp only [List.filter_cons, hkf, Bool.false_eq_true, if_false,
        List.map_cons, ih, hv]

/-- Claim C8: a reference region whose identifier is absent from the
prediction regions still yields an entry (the evaluator is total), that
entry is invalid with the "no prediction found" warning, and filtering
such regions out of the reference list does not change the global CER/WER
input texts: their lines are excluded from the global computation. -/
theorem spec_C8 (prediction_textregions : List TextRegion) (base : Entry)
    (reference_textregions : List TextRegion) (r : TextRegion)
    (hr : r ∈ reference_textregions)
    (habs : ∀ q ∈ prediction_textregions, q.id ≠ r.id) :
    (entryForRegion prediction_textregions base r).is_valid = false
  ∧ (entryForRegion prediction_textregions base r).warning_message =
      some "No prediction transcript found for this textregion."
  ∧ entryForRegion prediction_textregions base r ∈
      processRegions prediction_textregions base reference_textregions
  ∧ globalTexts (processRegions prediction_textregions base
        reference_textregions) =
      globalTexts (processRegions prediction_textregions base
        (reference_textregions.filter
          (fun x => (prediction_textregions.find?
            (fun q => q.id == x.id)).isSome))) := by
  have hfind : prediction_textregions.find? (fun q => q.id == r.id) = none :=
    List.find?_eq_none.mpr (fun q hq => by simp [habs q hq])
  obtain ⟨hv, hw⟩ := entryForRegion_invalid_of_find_none
    prediction_textregions base r hfind
  refine ⟨hv, hw, List.mem_map_of_mem _ hr, ?_⟩
  unfold processRegions
  rw [globalTexts_eq, globalTexts_eq]
  rw [filter_valid_of_invalid (entryForRegion prediction_textregions base)
    (fun x => (prediction_textregions.find?
      (fun q => q.id == x.id)).isSome)
    (fun x hx => by
      cases hfx : prediction_textregions.find? (fun q => q.id == x.id) with
      | none => exact (entryForRegion_invalid_of_find_none
          prediction_textregions base x hfx).1
      | some v => simp [hfx] at hx)
    reference_textregions]

/-- Witness for C8: with an empty prediction-region list and one reference
region "r1" with line "a", the produced entry is invalid with the
"no prediction found" warning, appears in the entry list, and the global
texts agree with those of the emptied reference list. -/
theorem spec_C8_witness :
    (entryForRegion [] { pageid := 11, pagenr := 1 }
        ⟨some "r1", none, [some "a"]⟩).is_valid = false
  ∧ (entryForRegion [] { pageid := 11, pagenr := 1 }
        ⟨some "r1", none, [some "a"]⟩).warning_message =
      some "No prediction transcript found for this textregion."
  ∧ entryForRegion [] { pageid := 11, pagenr := 1 }
        ⟨some "r1", none, [some "a"]⟩ ∈
      processRegions [] { pageid := 11, pagenr := 1 }
        [⟨some "r1", none, [some "a"]⟩]
  ∧ globalTexts (processRegions [] { pageid := 11, pagenr := 1 }
        [⟨some "r1", none, [some "a"]⟩]) =
      globalTexts (processRegions [] { pageid := 11, pagenr := 1 }
        (([⟨some "r1", none, [some "a"]⟩] :
            List TextRegion).filter
          (fun x => (([] : List TextRegion).find?
            (fun q => q.id == x.id)).isSome))) :=
  spec_C8 [] { pageid := 11, pagenr := 1 } [⟨some "r1", none, [some "a"]⟩]
    ⟨some "r1", none, [some "a"]⟩ (by decide) (by decide)

/-- Claim C1 (code defect, evaluation at the failing input): for c1page the
reference and prediction keywords resolve to the same transcript index,
the code logs that the page will be excluded and sets is_valid to False —
but it does not skip the page, and the region loop resets is_valid to
True, so the produced entry is valid, carries no warning, and its line
"a" enters the global CER/WER texts. -/
theorem spec_C1 :
    get_page_version_index c1page.transcripts c1cfg.reference_version =
      get_page_version_index c1page.transcripts c1cfg.prediction_version
  ∧ processPage c1cfg (fun _ => c1xml) c1page = some [c1entry]
  ∧ c1entry.is_valid = true
  ∧ c1entry.warning_message = none
  ∧ globalTexts [c1entry] = ([some "a"], [some "a"]) := by
  refine ⟨by decide, by decide, rfl, rfl, by decide⟩

theorem latestIndexGo_false_snd (ts : List Transcript) :
    ∀ (i : Nat) (bL : Option Int) (iL : Option Nat),
      (latestIndexGo false ts i bL none iL none).2 = none := by
  induction ts with
  | nil => intro i bL iL; rfl
  | cons t rest ih =>
    intro i bL iL
    simp only [latestIndexGo, Bool.false_and, Bool.false_eq_true, if_false]
    exact ih (i + 1) _ _

theorem latestIndexGo_false_step_none (t : Transcript)
    (rest : List Transcript) (i : Nat) :
    latestIndexGo false (t :: rest) i none none none none =
      latestIndexGo false rest (i + 1) (some t.timestamp) none (some i)
        none := by
  simp [latestIndexGo]

theorem latestIndexGo_false_step_le (t : Transcript)
    (rest : List Transcript) (i : Nat) (bv : Int) (iL : Option Nat)
    (h : bv ≤ t.timestamp) :
    latestIndexGo false (t :: rest) i (some bv) none iL none =
      latestIndexGo false rest (i + 1) (some t.timestamp) none (some i)
        none := by
  simp only [latestIndexGo, Bool.false_and, Bool.false_eq_true, if_false,
    max_eq_right h]
  simp

theorem latestIndexGo_false_step_gt (t : Transcript)
    (rest : List Transcript) (i : Nat) (bv : Int) (iL : Option Nat)
    (h : t.timestamp < bv) :
    latestIndexGo false (t :: rest) i (some bv) none iL none =
      latestIndexGo false rest (i + 1) (some bv) none iL none := by
  simp only [latestIndexGo, Bool.false_and, Bool.false_eq_true, if_false,
    max_eq_left (le_of_lt h)]
  rw [if_neg (show ¬ bv = t.timestamp by omega)]

theorem latestIndexGo_false_max (suffix : List Transcript) :
    ∀ (pre : List Transcript) (bL : Option Int) (iL : Option Nat),
      ((bL = none ∧ iL = none ∧ pre = []) ∨
        (∃ bv j tj, bL = some bv ∧ iL = some j ∧ j < pre.length ∧
          pre.get? j = some tj ∧ tj.timestamp = bv ∧
          ∀ t ∈ pre, t.timestamp ≤ bv)) →
      pre ++ suffix ≠ [] →
      ∃ j tj,
        (latestIndexGo false suffix pre.length bL none iL none).1 = some j ∧
        (pre ++ suffix).get? j = some tj ∧
        ∀ t ∈ pre ++ suffix, t.timestamp ≤ tj.timestamp := by
  induction suffix with
  | nil =>
    intro pre bL iL hinv hne
    rcases hinv with ⟨_, _, hpre⟩ | ⟨bv, j, tj, hbl, hil, hj, hget, hts, hle⟩
    · subst hpre
      exact absurd rfl hne
    · subst hil
      refine ⟨j, tj, rfl, ?_, ?_⟩
      · simpa using hget
      · intro u hu
        simp only [List.append_nil] at hu
        exact hts ▸ hle u hu
  | cons t rest ih =>
    intro pre bL iL hinv _
    rcases hinv with ⟨hbl, hil, hpre⟩ | ⟨bv, j, tj, hbl, hil, hj, hget, hts, hle⟩
    · subst hbl
      subst hil
      subst hpre
      simp only [List.length_nil]
      rw [latestIndexGo_false_step_none t rest 0]
      have := ih [t] (some t.timestamp) (some 0)
        (Or.inr ⟨t.timestamp, 0, t, rfl, rfl, by simp, rfl, rfl, by
          intro u hu
          rw [List.mem_singleton] at hu
          subst hu
          exact le_refl _⟩)
        (by simp)
      simpa using this
    · subst hbl
      subst hil
      by_cases hcmp : bv ≤ t.timestamp
      · rw [latestIndexGo_false_step_le t rest pre.length bv (some j) hcmp]
        rw [List.append_cons]
        have hlen : pre.length + 1 = (pre ++ [t]).length := by simp
        rw [hlen]
        refine ih (pre ++ [t]) (some t.timestamp) (some pre.length)
          (Or.inr ⟨t.timestamp, pre.length, t, rfl, rfl, by simp, ?_, rfl,
            ?_⟩) (by simp)
        · rw [List.get?_concat_length]
        · intro u hu
          rcases List.mem_append.mp hu with hu | hu
          · exact le_trans (hle u hu) hcmp
          · rw [List.mem_singleton] at hu
            subst hu
            exact le_refl _
      · have hlt : t.timestamp < bv := by omega
        rw [latestIndexGo_false_step_gt t rest pre.length bv (some j) hlt]
        rw [List.append_cons]
        have hlen : pre.length + 1 = (pre ++ [t]).length := by simp
        rw [hlen]
        refine ih (pre ++ [t]) (some bv) (some j)
          (Or.inr ⟨bv, j, tj, rfl, rfl, by simp; omega, ?_, hts, ?_⟩)
          (by simp)
        · rw [List.get?_append hj]
          exact hget
        · intro u hu
          rcases List.mem_append.mp hu with hu | hu
          · exact hle u hu
          · rw [List.mem_singleton] at hu
            subst hu
            exact le_of_lt hlt

theorem latestIndex_false_max (ts : List Transcript) (hne : ts ≠ []) :
    ∃ j tj, latestIndex false ts = some j ∧ ts.get? j = some tj ∧
      ∀ t ∈ ts, t.timestamp ≤ tj.timestamp := by
  obtain ⟨j, tj, h1, h2, h3⟩ := latestIndexGo_false_max ts [] none none
    (Or.inl ⟨rfl, rfl, rfl⟩) (by simpa using hne)
  refine ⟨j, tj, ?_, by simpa using h2, by simpa using h3⟩
  have hsnd := latestIndexGo_false_snd ts 0 none none
  simp only [latestIndex, hsnd, ne_eq, not_true_eq_false, false_and,
    if_false]
  simpa using h1

theorem selectPagesFrom_head_only (dropNr : List Nat)
    (dropStatus : List String) (following : Bool) :
    ∀ (pages1 pages2 : List TPage),
      List.Forall₂ (fun p q : TPage =>
        p.pageNr = q.pageNr ∧ p.pageId = q.pageId ∧
          p.transcripts.head? = q.transcripts.head?) pages1 pages2 →
      ∀ flag, selectPagesFrom dropNr dropStatus following flag pages1 =
        selectPagesFrom dropNr dropStatus following flag pages2 := by
  intro pages1 pages2 hrel
  induction hrel with
  | nil => intro flag; rfl
  | cons hpq htail ih =>
    intro flag
    cases flag
    · obtain ⟨h1, h2, h3⟩ := hpq
      simp only [selectPagesFrom, h1, h2, h3, ih]
    · rw [selectPagesFrom_break, selectPagesFrom_break]

/-- Counterexample for C6: the batch driver's page filter (a status-aware
caller, spec section 4.6) does not derive the latest transcript by maximum
timestamp: on a page whose index-0 transcript has status "NEW" but whose
maximum-timestamp transcript has status "DONE", the page is selected even
though "DONE" is in the status drop set — the filter read index 0. -/
theorem spec_C6_counterexample :
    selectPagesFrom [] ["DONE"] false false [stalePage] = some [(1, 7)]
  ∧ latestIndex false stalePage.transcripts = some 1
  ∧ (stalePage.transcripts.get? 1).map Transcript.status = some "DONE"
  ∧ "DONE" ∈ (["DONE"] : List String) := by decide

/-- Claim C6 (amended): download_latest_pagexml derives the latest
transcript as one attaining the maximum timestamp over the page's whole
transcript list; the batch transcription driver's page filter instead
consults only the transcript at index 0 (its selection is unchanged by any
modification of the later transcripts), and on a page list that is not
newest-first it selects a page whose maximum-timestamp status is in the
drop set. -/
theorem spec_C6 :
    (∀ ts : List Transcript, ts ≠ [] →
        ∃ j tj, latestIndex false ts = some j ∧ ts.get? j = some tj ∧
          ∀ t ∈ ts, t.timestamp ≤ tj.timestamp)
  ∧ (∀ (dropNr : List Nat) (dropStatus : List String) (following : Bool)
        (pages1 pages2 : List TPage),
        List.Forall₂ (fun p q : TPage =>
          p.pageNr = q.pageNr ∧ p.pageId = q.pageId ∧
            p.transcripts.head? = q.transcripts.head?) pages1 pages2 →
        ∀ flag, selectPagesFrom dropNr dropStatus following flag pages1 =
          selectPagesFrom dropNr dropStatus following flag pages2)
  ∧ selectPagesFrom [] ["DONE"] false false [stalePage] = some [(1, 7)] :=
  ⟨latestIndex_false_max, selectPagesFrom_head_only, by decide⟩

/-- Witness for C6: the maximum-timestamp index of stalePage's transcripts
is 1 (timestamp 200), and dropping stalePage's later transcripts does not
change the driver's selection. -/
theorem spec_C6_witness :
    (∃ j tj, latestIndex false stalePage.transcripts = some j ∧
        stalePage.transcripts.get? j = some tj ∧
        ∀ t ∈ stalePage.transcripts, t.timestamp ≤ tj.timestamp)
  ∧ selectPagesFrom [] ["DONE"] false false [stalePage] =
      selectPagesFrom [] ["DONE"] false false
        [⟨1, 7, [⟨201, "NEW", none, "u1", 100⟩]⟩] := by
  constructor
  · exact spec_C6.1 stalePage.transcripts (by decide)
  · exact spec_C6.2.1 [] ["DONE"] false [stalePage]
      [⟨1, 7, [⟨201, "NEW", none, "u1", 100⟩]⟩]
      (List.Forall₂.cons ⟨rfl, rfl, rfl⟩ List.Forall₂.nil) false
